import Mathlib

/-!
Verification development for the room heating model script (room_model2.py).

The script is embedded shallowly:
* Python floats are modelled as exact rationals.
* Python lists (and numpy arrays) are Lean lists; Python's negative-index
  wraparound is modelled by pyIdx, and an out-of-range index assignment
  (Python IndexError) by the PyResult.indexError outcome.
* Parsed timestamps are whole seconds, modelled as integers; the log-file
  parsing itself (JSON, strptime) is an external collaborator and a record
  arrives as its timestamp, sensor id and optional named readings.
* The local constants of calc_heat_in_radiator (conductance 25) and of the
  wall-loss computation (WALL_CONDUCTANCE) are lifted to parameters of the
  generic step (heatInRadiatorC, heatLossWallsC); the script's own
  functions are these instantiated at the script's constants.
-/

/-- Outcome of a piece of Python code: a normal result, or an uncaught
IndexError (the only runtime error the modelled code can raise). -/
inductive PyResult (α : Type) where
  | ok (a : α)
  | indexError
deriving DecidableEq, Repr

/-- Python indexing semantics for an index known to be in range after
wraparound: a negative index counts from the end. -/
def pyIdx (N : ℕ) (k : ℤ) : ℕ := (k % (N : ℤ)).toNat

/-- Python list assignment a[i] = v: direct for 0 <= i < len(a), wraparound
for -len(a) <= i < 0, IndexError otherwise. -/
def pySet {α : Type} (a : List α) (i : ℤ) (v : α) : PyResult (List α) :=
  if 0 ≤ i ∧ i < (a.length : ℤ) then .ok (a.set i.toNat v)
  else if i < 0 ∧ 0 ≤ i + (a.length : ℤ) then .ok (a.set (i + (a.length : ℤ)).toNat v)
  else .indexError

/-! ## Trace aligner (get_valve_data, lines 40-81) -/

/-- A decoded log line: absolute timestamp in whole seconds, sensor id, and
the optional readings T|C16 (temperature times 16) and H|% (valve opening). -/
structure RawRecord where
  time : ℤ
  sensor : String
  tC16 : Option ℚ
  hPc : Option ℚ
deriving DecidableEq

/-- The sensor identity hardcoded at line 47 of the script. -/
def SELECTED_SENSOR : String := "96F0CED3B4E690E8"

/-- Line 47: keep only the records of the selected sensor. -/
def filterSensor (sid : String) (records : List RawRecord) : List RawRecord :=
  records.filter (fun r => r.sensor == sid)

/-- Line 48: the (time, value) pairs of the temperature readings, the raw
T|C16 value divided by 16. -/
def rawTemps (records : List RawRecord) : List (ℤ × ℚ) :=
  records.filterMap (fun r => r.tC16.map (fun t => (r.time, t / 16)))

/-- Line 49: the (time, value) pairs of the valve-opening readings. -/
def rawValves (records : List RawRecord) : List (ℤ × ℚ) :=
  records.filterMap (fun r => r.hPc.map (fun h => (r.time, h)))

/-- Line 61: the time origin, the earlier of the two first timestamps. -/
def startTime (t0 v0 : ℤ) : ℤ := if t0 < v0 then t0 else v0

/-- Lines 62-63: timestamps become integer offsets from the origin. -/
def toOffsets (start : ℤ) (recs : List (ℤ × ℚ)) : List (ℤ × ℚ) :=
  recs.map (fun p => (p.1 - start, p.2))

/-- Lines 66-75: drop the records into their grid cells, in log order.
A record with offset strictly above the horizon stops the loop; the
assignment itself follows Python indexing (an offset equal to the horizon
is an IndexError on the length-N list). -/
def placeRecords (N : ℕ) : List (ℤ × ℚ) → List (Option ℚ) → PyResult (List (Option ℚ))
  | [], a => .ok a
  | (t, v) :: rest, a =>
    if (N : ℤ) < t then .ok a
    else match pySet a t (some v) with
      | .ok a2 => placeRecords N rest a2
      | .indexError => .indexError

/-- Lines 76-80, one cell: if cell i is empty it is filled from cell i-1
(with Python wraparound at i = 0). -/
def fillStep (b : List (Option ℚ)) (i : ℕ) : List (Option ℚ) :=
  if b.getD i none = none then b.set i (b.getD (pyIdx b.length ((i : ℤ) - 1)) none) else b

/-- The forward-fill loop after processing the first m cells. -/
def fillUpTo (a : List (Option ℚ)) (m : ℕ) : List (Option ℚ) :=
  (List.range m).foldl fillStep a

/-- Lines 76-80: the full forward-fill pass over the grid. -/
def fillForward (a : List (Option ℚ)) : List (Option ℚ) := fillUpTo a a.length

/-- One series of lines 64-80: an empty grid of N cells, placement, then
forward fill. -/
def alignSeries (N : ℕ) (recs : List (ℤ × ℚ)) : PyResult (List (Option ℚ)) :=
  match placeRecords N recs (List.replicate N none) with
  | .ok a => .ok (fillForward a)
  | .indexError => .indexError

/-- Lines 40-81: the whole aligner. Indexing an empty reading list at
line 61 is an IndexError. -/
def get_valve_data (N : ℕ) (sid : String) (records : List RawRecord) :
    PyResult (List (Option ℚ) × List (Option ℚ)) :=
  let filtered := filterSensor sid records
  match rawTemps filtered, rawValves filtered with
  | [], _ => .indexError
  | _ :: _, [] => .indexError
  | (t0, _) :: _, (v0, _) :: _ =>
    let start := startTime t0 v0
    match alignSeries N (toOffsets start (rawTemps filtered)),
          alignSeries N (toOffsets start (rawValves filtered)) with
    | .ok ta, .ok va => .ok (ta, va)
    | .indexError, _ => .indexError
    | _, .indexError => .indexError

/-- The value of the last record, in log order, whose offset is j. -/
def lastVal (j : ℤ) : List (ℤ × ℚ) → Option ℚ
  | [] => none
  | (t, v) :: rest => match lastVal j rest with
    | some w => some w
    | none => if t = j then some v else none

/-- Reference reading of the filled grid: cell i holds its own placed value
if any, otherwise the value carried forward from cell i-1; at cell 0 the
carry reads the (unprocessed) last cell, Python wraparound. -/
def ffSpec (a : List (Option ℚ)) : ℕ → Option ℚ
  | 0 => match a.getD 0 none with
    | some v => some v
    | none => a.getD (pyIdx a.length (-1)) none
  | i + 1 => match a.getD (i + 1) none with
    | some v => some v
    | none => ffSpec a i

/-! ## Physical constants (lines 19-37) and heat-flow functions -/

def DHD_HLP : ℚ := 2.56
def N_ITERATIONS : ℕ := 24 * 60 * 60
def START_TEMP : ℚ := 20.0
def OUTSIDE_TEMP : ℚ := 0.0
def ROOM_SIZE : ℚ × ℚ × ℚ := (3.0, 5.0, 2.3)
def DENSITY_AIR : ℚ := 1.205
def Cp_AIR : ℚ := 1005.0
def VOLUME : ℚ := ROOM_SIZE.1 * ROOM_SIZE.2.1 * ROOM_SIZE.2.2
def C_AIR : ℚ := DENSITY_AIR * VOLUME * Cp_AIR
def WALL_CONDUCTANCE : ℚ := ROOM_SIZE.1 * ROOM_SIZE.2.1 * DHD_HLP

/-- The radiator thermal conductance, the local constant of line 95. -/
def RADIATOR_CONDUCTANCE : ℚ := 25

/-- Line 96: the assumed radiator operating curve, 2 * pct - 80. -/
def effRadTemp (radiator_temp : ℚ) : ℚ := 2 * radiator_temp - 80.0

/-- Lines 86-98 with the local conductance lifted to a parameter. -/
def heatInRadiatorC (conductance room_temp radiator_temp : ℚ) : ℚ :=
  let temp := 2 * radiator_temp - 80.0
  (temp - room_temp) * conductance

/-- Lines 86-98: heat transfer into the room via the radiator. -/
def calc_heat_in_radiator (room_temp radiator_temp : ℚ) : ℚ :=
  heatInRadiatorC RADIATOR_CONDUCTANCE room_temp radiator_temp

/-- Line 110 with the wall conductance lifted to a parameter. -/
def heatLossWallsC (conductance room_temp outside_temp : ℚ) : ℚ :=
  (outside_temp - room_temp) * conductance

/-- Lines 101-110: heat loss through walls, floor and ceiling. -/
def calc_heat_loss_walls (room_temp outside_temp : ℚ) : ℚ :=
  heatLossWallsC WALL_CONDUCTANCE room_temp outside_temp

/-- Lines 113-124: the secondary-mass (storage) temperature update. -/
def calc_heat_storage (room_temp storage_temp : ℚ) : ℚ :=
  storage_temp + ((room_temp - storage_temp) * 1.0) / 100000000.0

/-- Lines 127-136: the new room temperature from the summed heat flows. -/
def calc_temp (room_temp : ℚ) (args : List ℚ) : ℚ :=
  room_temp + (1.0 / C_AIR) * args.sum

/-- Modelled from the spec: the radiator heat flow when the driver is a
radiator temperature schedule rather than a valve percentage. That script
variant is not among the source files; per the spec the effective radiator
temperature is then the direct driving-series value. -/
def heatInRadiatorTempDriven (room_temp radiator_temp : ℚ) : ℚ :=
  (radiator_temp - room_temp) * RADIATOR_CONDUCTANCE

/-! ## Thermal stepper (lines 139-154) -/

/-- The four module-level arrays of lines 139-142. -/
structure SimState where
  room_temps : List ℚ
  heat_in : List ℚ
  heat_out : List ℚ
  heat_stored : List ℚ

/-- Lines 139-142: arrays pre-filled with the start temperature and zeros. -/
def initState (N : ℕ) (start : ℚ) : SimState :=
  ⟨List.replicate N start, List.replicate N 0, List.replicate N 0, List.replicate N start⟩

/-- One iteration of the loop at lines 145-154, with the radiator and wall
conductances as parameters (the script runs it at RADIATOR_CONDUCTANCE and
WALL_CONDUCTANCE). The reads and writes keep the script's order: the three
heat arrays are written before the room update reads them back at the
wrapped indices i-1 and i-2. -/
def stepSim (N : ℕ) (rc wc outside : ℚ) (valve : ℕ → ℚ) (s : SimState) (i : ℕ) : SimState :=
  let im1 := pyIdx N ((i : ℤ) - 1)
  let im2 := pyIdx N ((i : ℤ) - 2)
  let rPrev := s.room_temps.getD im1 0
  let heat_in2 := s.heat_in.set i (heatInRadiatorC rc rPrev (valve im1))
  let heat_out2 := s.heat_out.set i (heatLossWallsC wc rPrev outside)
  let heat_stored2 := s.heat_stored.set i (calc_heat_storage rPrev (s.heat_stored.getD im1 0))
  let room2 := s.room_temps.set i (calc_temp rPrev
    [heat_in2.getD im1 0, heat_out2.getD im1 0,
     (heat_stored2.getD im2 0 - heat_stored2.getD im1 0) * 1000000.0])
  ⟨room2, heat_in2, heat_out2, heat_stored2⟩

/-- The state after the first m iterations of the loop. -/
def runUpTo (N : ℕ) (rc wc outside start : ℚ) (valve : ℕ → ℚ) (m : ℕ) : SimState :=
  (List.range m).foldl (stepSim N rc wc outside valve) (initState N start)

/-- Lines 145-154: the whole run, N iterations over the fixed horizon. -/
def runSim (N : ℕ) (rc wc outside start : ℚ) (valve : ℕ → ℚ) : SimState :=
  runUpTo N rc wc outside start valve N

/-- The script's own run configuration (lines 23-26, 83, 145-154). -/
def scriptSim (valve : ℕ → ℚ) : SimState :=
  runSim N_ITERATIONS RADIATOR_CONDUCTANCE WALL_CONDUCTANCE OUTSIDE_TEMP START_TEMP valve

/-- Entry t of the room-temperature history of a finished run. -/
def roomAt (N : ℕ) (rc wc outside start : ℚ) (valve : ℕ → ℚ) (t : ℕ) : ℚ :=
  (runSim N rc wc outside start valve).room_temps.getD t 0

/-- Entry t of the heat-in history of a finished run. -/
def heatInAt (N : ℕ) (rc wc outside start : ℚ) (valve : ℕ → ℚ) (t : ℕ) : ℚ :=
  (runSim N rc wc outside start valve).heat_in.getD t 0

/-- Entry t of the heat-out history of a finished run. -/
def heatOutAt (N : ℕ) (rc wc outside start : ℚ) (valve : ℕ → ℚ) (t : ℕ) : ℚ :=
  (runSim N rc wc outside start valve).heat_out.getD t 0

/-- Entry t of the storage-temperature history of a finished run. -/
def storedAt (N : ℕ) (rc wc outside start : ℚ) (valve : ℕ → ℚ) (t : ℕ) : ℚ :=
  (runSim N rc wc outside start valve).heat_stored.getD t 0

/-- A constant driving series, used for concrete instantiations. -/
def vconst : ℕ → ℚ := fun _ => 50

/-! ## Helper lemmas: list cells and Python index arithmetic -/

theorem getD_set_self {α : Type} (l : List α) (i : ℕ) (v d : α) (h : i < l.length) :
    (l.set i v).getD i d = v := by
  induction l generalizing i with
  | nil => simp at h
  | cons a t ih =>
    cases i with
    | zero => rfl
    | succ j => exact ih j (by simpa using h)

theorem getD_set_ne {α : Type} (l : List α) (i j : ℕ) (v d : α) (h : i ≠ j) :
    (l.set i v).getD j d = l.getD j d := by
  induction l generalizing i j with
  | nil => cases i <;> rfl
  | cons a t ih =>
    cases i with
    | zero =>
      cases j with
      | zero => exact absurd rfl h
      | succ k => rfl
    | succ m =>
      cases j with
      | zero => rfl
      | succ k => exact ih m k (by omega)

theorem getD_replicate {α : Type} (n i : ℕ) (v d : α) (h : i < n) :
    (List.replicate n v).getD i d = v := by
  induction n generalizing i with
  | zero => omega
  | succ m ih =>
    cases i with
    | zero => rfl
    | succ j => exact ih j (by omega)

theorem pyIdx_lt (N : ℕ) (k : ℤ) (h : 0 < N) : pyIdx N k < N := by
  unfold pyIdx
  have h2 : 0 ≤ k % (N : ℤ) := Int.emod_nonneg k (by omega)
  have h3 : k % (N : ℤ) < (N : ℤ) := Int.emod_lt_of_pos k (by omega)
  omega

theorem pyIdx_nat (N i : ℕ) (h : i < N) : pyIdx N (i : ℤ) = i := by
  unfold pyIdx
  rw [Int.emod_eq_of_lt (by omega) (by omega)]
  omega

theorem pyIdx_neg (N : ℕ) (k : ℤ) (h1 : k < 0) (h2 : 0 ≤ k + (N : ℤ)) :
    pyIdx N k = (k + (N : ℤ)).toNat := by
  unfold pyIdx
  have h3 := Int.add_mul_emod_self_left k (N : ℤ) 1
  rw [mul_one] at h3
  rw [← h3, Int.emod_eq_of_lt h2 (by omega)]

theorem pyIdx_sub_one (N i : ℕ) (h1 : 1 ≤ i) (h2 : i < N) :
    pyIdx N ((i : ℤ) - 1) = i - 1 := by
  have e : ((i : ℤ) - 1) = ((i - 1 : ℕ) : ℤ) := by omega
  rw [e]
  exact pyIdx_nat N (i - 1) (by omega)

theorem pyIdx_sub_two (N i : ℕ) (h1 : 2 ≤ i) (h2 : i < N) :
    pyIdx N ((i : ℤ) - 2) = i - 2 := by
  have e : ((i : ℤ) - 2) = ((i - 2 : ℕ) : ℤ) := by omega
  rw [e]
  exact pyIdx_nat N (i - 2) (by omega)

theorem pyIdx_neg_one (N : ℕ) (h : 1 ≤ N) : pyIdx N (-1) = N - 1 := by
  rw [pyIdx_neg N (-1) (by omega) (by omega)]
  omega

theorem pyIdx_neg_two (N : ℕ) (h : 2 ≤ N) : pyIdx N (-2) = N - 2 := by
  rw [pyIdx_neg N (-2) (by omega) (by omega)]
  omega

/-! ## Aligner lemmas: placement and forward fill -/

theorem placeRecords_ok (N : ℕ) (recs : List (ℤ × ℚ)) (a : List (Option ℚ))
    (ha : a.length = N)
    (hr : ∀ r ∈ recs, 0 ≤ r.1 ∧ r.1 < (N : ℤ)) :
    ∃ b, placeRecords N recs a = .ok b ∧ b.length = N ∧
      ∀ j : ℕ, j < N →
        b.getD j none = (match lastVal (j : ℤ) recs with
          | some v => some v
          | none => a.getD j none) := by
  induction recs generalizing a with
  | nil =>
    refine ⟨a, rfl, ha, ?_⟩
    intro j _
    simp [lastVal]
  | cons hd rest ih =>
    obtain ⟨t, v⟩ := hd
    have hdc := hr (t, v) (by simp)
    have hlen : ((a.length : ℕ) : ℤ) = (N : ℤ) := by rw [ha]
    have hset : pySet a t (some v) = .ok (a.set t.toNat (some v)) := by
      unfold pySet
      rw [if_pos ⟨hdc.1, by omega⟩]
    have hrec : placeRecords N ((t, v) :: rest) a = placeRecords N rest (a.set t.toNat (some v)) := by
      simp only [placeRecords]
      rw [if_neg (by omega), hset]
    have hr2 : ∀ r ∈ rest, 0 ≤ r.1 ∧ r.1 < (N : ℤ) := fun r hm => hr r (by simp [hm])
    obtain ⟨b, hb, hblen, hbchar⟩ := ih (a.set t.toNat (some v)) (by simp [ha]) hr2
    refine ⟨b, by rw [hrec]; exact hb, hblen, ?_⟩
    intro j hj
    have hchar := hbchar j hj
    cases hcase : lastVal (j : ℤ) rest with
    | some w =>
      rw [hcase] at hchar
      simp only [lastVal, hcase]
      exact hchar
    | none =>
      rw [hcase] at hchar
      simp only [lastVal, hcase]
      by_cases htj : t = (j : ℤ)
      · rw [if_pos htj]
        have : t.toNat = j := by omega
        rw [hchar, this, getD_set_self a j (some v) none (by omega)]
      · rw [if_neg htj]
        have : t.toNat ≠ j := by omega
        rw [hchar, getD_set_ne a t.toNat j (some v) none this]

theorem fillStep_length (b : List (Option ℚ)) (i : ℕ) :
    (fillStep b i).length = b.length := by
  unfold fillStep
  split <;> simp

theorem fillUpTo_succ (a : List (Option ℚ)) (m : ℕ) :
    fillUpTo a (m + 1) = fillStep (fillUpTo a m) m := by
  unfold fillUpTo
  rw [List.range_succ, List.foldl_append]
  rfl

theorem fillUpTo_length (a : List (Option ℚ)) (m : ℕ) :
    (fillUpTo a m).length = a.length := by
  induction m with
  | zero => rfl
  | succ n ih => rw [fillUpTo_succ, fillStep_length, ih]

theorem ffSpec_occupied (a : List (Option ℚ)) (i : ℕ) (v : ℚ)
    (h : a.getD i none = some v) : ffSpec a i = some v := by
  cases i with
  | zero => unfold ffSpec; rw [h]
  | succ n => unfold ffSpec; rw [h]

theorem fillUpTo_spec (a : List (Option ℚ)) (m : ℕ) (hm : m ≤ a.length) :
    (∀ k, m ≤ k → (fillUpTo a m).getD k none = a.getD k none) ∧
    (∀ k, k < m → (fillUpTo a m).getD k none = ffSpec a k) := by
  induction m with
  | zero => exact ⟨fun k _ => rfl, fun k hk => absurd hk (by omega)⟩
  | succ n ih =>
    obtain ⟨ih1, ih2⟩ := ih (by omega)
    have hlen : (fillUpTo a n).length = a.length := fillUpTo_length a n
    have hna : n < a.length := by omega
    rw [fillUpTo_succ]
    by_cases hc : (fillUpTo a n).getD n none = none
    · -- cell n is empty: it is filled from the wrapped previous cell
      have han : a.getD n none = none := by rw [← ih1 n le_rfl]; exact hc
      have hread : (fillUpTo a n).getD (pyIdx (fillUpTo a n).length ((n : ℤ) - 1)) none
          = ffSpec a n := by
        cases n with
        | zero =>
          have e1 : ((0 : ℕ) : ℤ) - 1 = -1 := by omega
          have e2 : pyIdx a.length (-1) = a.length - 1 :=
            pyIdx_neg_one a.length (by omega)
          rw [hlen, e1, e2, ih1 (a.length - 1) (by omega)]
          simp only [ffSpec, han, e2]
        | succ j =>
          have e1 : pyIdx (fillUpTo a (j + 1)).length (((j + 1 : ℕ) : ℤ) - 1) = j := by
            rw [hlen]
            have e : (((j + 1 : ℕ) : ℤ) - 1) = ((j : ℕ) : ℤ) := by omega
            rw [e]
            exact pyIdx_nat a.length j (by omega)
          rw [e1, ih2 j (by omega)]
          simp only [ffSpec, han]
      unfold fillStep
      rw [if_pos hc]
      constructor
      · intro k hk
        rw [getD_set_ne _ n k _ none (by omega)]
        exact ih1 k (by omega)
      · intro k hk
        by_cases hkn : k = n
        · subst hkn
          rw [getD_set_self _ k _ none (by omega), hread]
        · rw [getD_set_ne _ n k _ none (by omega)]
          exact ih2 k (by omega)
    · -- cell n is occupied: the pass leaves it alone
      unfold fillStep
      rw [if_neg hc]
      constructor
      · intro k hk
        exact ih1 k (by omega)
      · intro k hk
        by_cases hkn : k = n
        · subst hkn
          have han : (fillUpTo a k).getD k none = a.getD k none := ih1 k le_rfl
          cases haw : a.getD k none with
          | none => rw [haw] at han; exact absurd han hc
          | some w => rw [han, haw, ffSpec_occupied a k w haw]
        · exact ih2 k (by omega)

theorem fillForward_spec (a : List (Option ℚ)) (k : ℕ) (hk : k < a.length) :
    (fillForward a).getD k none = ffSpec a k :=
  (fillUpTo_spec a a.length le_rfl).2 k hk

theorem ffSpec_carry (a : List (Option ℚ)) (j i : ℕ) (v : ℚ) (hji : j ≤ i)
    (hj : a.getD j none = some v)
    (hgap : ∀ k, j < k → k ≤ i → a.getD k none = none) :
    ffSpec a i = some v := by
  induction i with
  | zero =>
    have hj0 : j = 0 := by omega
    subst hj0
    exact ffSpec_occupied a 0 v hj
  | succ n ih =>
    by_cases hje : j = n + 1
    · subst hje
      exact ffSpec_occupied a (n + 1) v hj
    · have h2 : a.getD (n + 1) none = none := hgap (n + 1) (by omega) (by omega)
      simp only [ffSpec, h2]
      exact ih (by omega) (fun k hk1 hk2 => hgap k hk1 (by omega))

/-! ## Claims about the trace aligner -/

/-- C2: aligned grid cell i holds the most recent known value at or before
second i, with last-write-wins inside a one-second cell (general statement,
for offsets inside the horizon and cells at or after a reading), and on
readings at offsets 0, 5, 12 with values 10, 20, 30 and horizon 15 the
aligner returns exactly the 5-7-3 pattern of carried values. -/
theorem c2_forward_fill :
    (∀ (N : ℕ) (recs : List (ℤ × ℚ)) (i j : ℕ) (v : ℚ),
      (∀ r ∈ recs, 0 ≤ r.1 ∧ r.1 < (N : ℤ)) → j ≤ i → i < N →
      lastVal (j : ℤ) recs = some v →
      (∀ k : ℕ, k < N → j < k → k ≤ i → lastVal (k : ℤ) recs = none) →
      ∃ b, alignSeries N recs = .ok b ∧ b.getD i none = some v) ∧
    alignSeries 15 [((0 : ℤ), (10 : ℚ)), (5, 20), (12, 30)] =
      .ok [some 10, some 10, some 10, some 10, some 10,
           some 20, some 20, some 20, some 20, some 20, some 20, some 20,
           some 30, some 30, some 30] := by
  constructor
  · intro N recs i j v hr hji hiN hlast hgap
    obtain ⟨b0, hb0, hblen, hchar⟩ :=
      placeRecords_ok N recs (List.replicate N none) (by simp) hr
    refine ⟨fillForward b0, ?_, ?_⟩
    · unfold alignSeries
      rw [hb0]
    · have hfi : (fillForward b0).getD i none = ffSpec b0 i :=
        fillForward_spec b0 i (by omega)
      rw [hfi]
      apply ffSpec_carry b0 j i v hji
      · have := hchar j (by omega)
        rw [hlast] at this
        exact this
      · intro k hk1 hk2
        have hkN : k < N := by omega
        have := hchar k hkN
        rw [hgap k hkN hk1 hk2] at this
        rw [this]
        exact getD_replicate N k none none hkN
  · decide

/-- Witness for C2, at the spec's own example: the last cell of the
15-second grid carries the reading placed at offset 12. -/
theorem c2_forward_fill_witness :
    ∃ b, alignSeries 15 [((0 : ℤ), (10 : ℚ)), (5, 20), (12, 30)] = .ok b ∧
      b.getD 14 none = some 30 :=
  c2_forward_fill.1 15 [((0 : ℤ), (10 : ℚ)), (5, 20), (12, 30)] 14 12 30
    (by decide) (by decide) (by decide) (by decide) (by decide)

/-- C3 (code behavior at the failing input): with no reading in grid cell 0
the aligner does not fail; the fill loop reads the wrapped index -1, so the
leading cells either stay undefined (first conjunct) or silently receive the
value placed in the last cell (second conjunct). No AlignmentError exists
in the script. -/
theorem c3_gap_at_origin_silent :
    alignSeries 4 [((2 : ℤ), (10 : ℚ))] = .ok [none, none, some 10, some 10] ∧
    alignSeries 4 [((2 : ℤ), (10 : ℚ)), (3, 99)] =
      .ok [some 99, some 99, some 10, some 99] := by
  decide

/-- C4 (code behavior at the boundary): a record at offset exactly N is not
dropped but raises an IndexError (the guard is offset > N, the list has N
cells); a record at offset N + 1 silently stops the placement loop, which
also drops a later in-range record. -/
theorem c4_horizon_boundary :
    alignSeries 5 [((5 : ℤ), (42 : ℚ))] = .indexError ∧
    alignSeries 5 [((6 : ℤ), (42 : ℚ))] = .ok (List.replicate 5 none) ∧
    alignSeries 5 [((6 : ℤ), (42 : ℚ)), (2, 7)] = .ok (List.replicate 5 none) := by
  decide

/-- C5 (code behavior at the failing input): when the selected sensor
identity yields zero records of a required kind, the aligner raises an
IndexError by indexing the empty reading list, not a ConfigurationError
(no such error exists in the script): no matching sensor id, a matching
sensor with no temperature readings, and a matching sensor with no
valve-percentage readings. -/
theorem c5_zero_match_index_error :
    get_valve_data 5 SELECTED_SENSOR [⟨100, "OTHER", some 160, some 50⟩] = .indexError ∧
    get_valve_data 5 SELECTED_SENSOR [⟨100, SELECTED_SENSOR, none, some 50⟩] = .indexError ∧
    get_valve_data 5 SELECTED_SENSOR [⟨100, SELECTED_SENSOR, some 160, none⟩] = .indexError := by
  decide

/-- C7: the time origin is the minimum of the two first timestamps, each
retained record's timestamp becomes its integer offset from that origin,
and on temperature readings starting 3 seconds after valve readings the
valve array is filled from second 0 while the first three temperature
cells are undefined-before-fill (and stay undefined, nothing earlier
existing to carry). The raw temperature 160 is the C16 reading, scaled
by 1/16 to 10 degrees. -/
theorem c7_time_origin_min :
    (∀ t0 v0 : ℤ, startTime t0 v0 = min t0 v0) ∧
    (∀ (s : ℤ) (recs : List (ℤ × ℚ)),
      (toOffsets s recs).map Prod.fst = recs.map (fun p => p.1 - s)) ∧
    get_valve_data 5 SELECTED_SENSOR
        [⟨100, SELECTED_SENSOR, none, some 50⟩, ⟨103, SELECTED_SENSOR, some 160, none⟩] =
      .ok ([none, none, none, some (160 / 16), some (160 / 16)],
           [some 50, some 50, some 50, some 50, some 50]) ∧
    (160 : ℚ) / 16 = 10 := by
  refine ⟨?_, ?_, ?_, by norm_num⟩
  · intro t0 v0
    unfold startTime
    rw [min_def]
    split_ifs <;> omega
  · intro s recs
    unfold toOffsets
    rw [List.map_map]
    rfl
  · rfl

/-! ## Stepper lemmas: field equations, stability, per-entry values -/

theorem stepSim_heat_in (N : ℕ) (rc wc outside : ℚ) (valve : ℕ → ℚ) (s : SimState) (i : ℕ) :
    (stepSim N rc wc outside valve s i).heat_in =
      s.heat_in.set i (heatInRadiatorC rc (s.room_temps.getD (pyIdx N ((i : ℤ) - 1)) 0)
        (valve (pyIdx N ((i : ℤ) - 1)))) := rfl

theorem stepSim_heat_out (N : ℕ) (rc wc outside : ℚ) (valve : ℕ → ℚ) (s : SimState) (i : ℕ) :
    (stepSim N rc wc outside valve s i).heat_out =
      s.heat_out.set i (heatLossWallsC wc (s.room_temps.getD (pyIdx N ((i : ℤ) - 1)) 0)
        outside) := rfl

theorem stepSim_heat_stored (N : ℕ) (rc wc outside : ℚ) (valve : ℕ → ℚ) (s : SimState) (i : ℕ) :
    (stepSim N rc wc outside valve s i).heat_stored =
      s.heat_stored.set i (calc_heat_storage (s.room_temps.getD (pyIdx N ((i : ℤ) - 1)) 0)
        (s.heat_stored.getD (pyIdx N ((i : ℤ) - 1)) 0)) := rfl

theorem stepSim_room_temps (N : ℕ) (rc wc outside : ℚ) (valve : ℕ → ℚ) (s : SimState) (i : ℕ) :
    (stepSim N rc wc outside valve s i).room_temps =
      s.room_temps.set i (calc_temp (s.room_temps.getD (pyIdx N ((i : ℤ) - 1)) 0)
        [((stepSim N rc wc outside valve s i).heat_in).getD (pyIdx N ((i : ℤ) - 1)) 0,
         ((stepSim N rc wc outside valve s i).heat_out).getD (pyIdx N ((i : ℤ) - 1)) 0,
         (((stepSim N rc wc outside valve s i).heat_stored).getD (pyIdx N ((i : ℤ) - 2)) 0 -
          ((stepSim N rc wc outside valve s i).heat_stored).getD (pyIdx N ((i : ℤ) - 1)) 0) *
           1000000.0]) := rfl

theorem runUpTo_zero (N : ℕ) (rc wc outside start : ℚ) (valve : ℕ → ℚ) :
    runUpTo N rc wc outside start valve 0 = initState N start := rfl

theorem runUpTo_succ (N : ℕ) (rc wc outside start : ℚ) (valve : ℕ → ℚ) (m : ℕ) :
    runUpTo N rc wc outside start valve (m + 1) =
      stepSim N rc wc outside valve (runUpTo N rc wc outside start valve m) m := by
  unfold runUpTo
  rw [List.range_succ, List.foldl_append]
  rfl

theorem runUpTo_lengths (N : ℕ) (rc wc outside start : ℚ) (valve : ℕ → ℚ) (m : ℕ) :
    (runUpTo N rc wc outside start valve m).room_temps.length = N ∧
    (runUpTo N rc wc outside start valve m).heat_in.length = N ∧
    (runUpTo N rc wc outside start valve m).heat_out.length = N ∧
    (runUpTo N rc wc outside start valve m).heat_stored.length = N := by
  induction m with
  | zero => simp [runUpTo_zero, initState]
  | succ n ih =>
    rw [runUpTo_succ, stepSim_heat_in, stepSim_heat_out, stepSim_heat_stored,
      stepSim_room_temps]
    simpa using ih

theorem sim_untouched (N : ℕ) (rc wc outside start : ℚ) (valve : ℕ → ℚ) :
    ∀ (m k : ℕ), m ≤ k → k < N →
    (runUpTo N rc wc outside start valve m).room_temps.getD k 0 = start ∧
    (runUpTo N rc wc outside start valve m).heat_in.getD k 0 = 0 ∧
    (runUpTo N rc wc outside start valve m).heat_out.getD k 0 = 0 ∧
    (runUpTo N rc wc outside start valve m).heat_stored.getD k 0 = start := by
  intro m
  induction m with
  | zero =>
    intro k _ hk
    rw [runUpTo_zero]
    unfold initState
    exact ⟨getD_replicate N k start 0 hk, getD_replicate N k 0 0 hk,
      getD_replicate N k 0 0 hk, getD_replicate N k start 0 hk⟩
  | succ n ih =>
    intro k hmk hk
    obtain ⟨ih1, ih2, ih3, ih4⟩ := ih k (by omega) hk
    rw [runUpTo_succ, stepSim_heat_in, stepSim_heat_out, stepSim_heat_stored,
      stepSim_room_temps]
    rw [stepSim_heat_in, stepSim_heat_out, stepSim_heat_stored]
    refine ⟨?_, ?_, ?_, ?_⟩ <;> rw [getD_set_ne _ n k _ 0 (by omega)] <;> assumption

theorem sim_stable (N : ℕ) (rc wc outside start : ℚ) (valve : ℕ → ℚ) :
    ∀ (m k : ℕ), k < m →
    (runUpTo N rc wc outside start valve m).room_temps.getD k 0 =
      (runUpTo N rc wc outside start valve (k + 1)).room_temps.getD k 0 ∧
    (runUpTo N rc wc outside start valve m).heat_in.getD k 0 =
      (runUpTo N rc wc outside start valve (k + 1)).heat_in.getD k 0 ∧
    (runUpTo N rc wc outside start valve m).heat_out.getD k 0 =
      (runUpTo N rc wc outside start valve (k + 1)).heat_out.getD k 0 ∧
    (runUpTo N rc wc outside start valve m).heat_stored.getD k 0 =
      (runUpTo N rc wc outside start valve (k + 1)).heat_stored.getD k 0 := by
  intro m
  induction m with
  | zero => intro k hk; omega
  | succ n ih =>
    intro k hk
    by_cases hkn : k = n
    · subst hkn
      exact ⟨rfl, rfl, rfl, rfl⟩
    · obtain ⟨ih1, ih2, ih3, ih4⟩ := ih k (by omega)
      rw [runUpTo_succ, stepSim_heat_in, stepSim_heat_out, stepSim_heat_stored,
        stepSim_room_temps]
      rw [stepSim_heat_in, stepSim_heat_out, stepSim_heat_stored]
      refine ⟨?_, ?_, ?_, ?_⟩ <;> rw [getD_set_ne _ n k _ 0 (by omega)] <;> assumption

theorem roomAt_run (N : ℕ) (rc wc outside start : ℚ) (valve : ℕ → ℚ) (k : ℕ) (hk : k < N) :
    roomAt N rc wc outside start valve k =
      (runUpTo N rc wc outside start valve (k + 1)).room_temps.getD k 0 :=
  (sim_stable N rc wc outside start valve N k hk).1

theorem heatInAt_run (N : ℕ) (rc wc outside start : ℚ) (valve : ℕ → ℚ) (k : ℕ) (hk : k < N) :
    heatInAt N rc wc outside start valve k =
      (runUpTo N rc wc outside start valve (k + 1)).heat_in.getD k 0 :=
  (sim_stable N rc wc outside start valve N k hk).2.1

theorem heatOutAt_run (N : ℕ) (rc wc outside start : ℚ) (valve : ℕ → ℚ) (k : ℕ) (hk : k < N) :
    heatOutAt N rc wc outside start valve k =
      (runUpTo N rc wc outside start valve (k + 1)).heat_out.getD k 0 :=
  (sim_stable N rc wc outside start valve N k hk).2.2.1

theorem storedAt_run (N : ℕ) (rc wc outside start : ℚ) (valve : ℕ → ℚ) (k : ℕ) (hk : k < N) :
    storedAt N rc wc outside start valve k =
      (runUpTo N rc wc outside start valve (k + 1)).heat_stored.getD k 0 :=
  (sim_stable N rc wc outside start valve N k hk).2.2.2

theorem entry_heat_in (N : ℕ) (rc wc outside start : ℚ) (valve : ℕ → ℚ) (i : ℕ) (hiN : i < N) :
    (runUpTo N rc wc outside start valve (i + 1)).heat_in.getD i 0 =
      heatInRadiatorC rc
        ((runUpTo N rc wc outside start valve i).room_temps.getD (pyIdx N ((i : ℤ) - 1)) 0)
        (valve (pyIdx N ((i : ℤ) - 1))) := by
  rw [runUpTo_succ, stepSim_heat_in]
  exact getD_set_self _ i _ 0
    (by rw [(runUpTo_lengths N rc wc outside start valve i).2.1]; exact hiN)

theorem entry_heat_out (N : ℕ) (rc wc outside start : ℚ) (valve : ℕ → ℚ) (i : ℕ) (hiN : i < N) :
    (runUpTo N rc wc outside start valve (i + 1)).heat_out.getD i 0 =
      heatLossWallsC wc
        ((runUpTo N rc wc outside start valve i).room_temps.getD (pyIdx N ((i : ℤ) - 1)) 0)
        outside := by
  rw [runUpTo_succ, stepSim_heat_out]
  exact getD_set_self _ i _ 0
    (by rw [(runUpTo_lengths N rc wc outside start valve i).2.2.1]; exact hiN)

theorem entry_heat_stored (N : ℕ) (rc wc outside start : ℚ) (valve : ℕ → ℚ) (i : ℕ) (hiN : i < N) :
    (runUpTo N rc wc outside start valve (i + 1)).heat_stored.getD i 0 =
      calc_heat_storage
        ((runUpTo N rc wc outside start valve i).room_temps.getD (pyIdx N ((i : ℤ) - 1)) 0)
        ((runUpTo N rc wc outside start valve i).heat_stored.getD (pyIdx N ((i : ℤ) - 1)) 0) := by
  rw [runUpTo_succ, stepSim_heat_stored]
  exact getD_set_self _ i _ 0
    (by rw [(runUpTo_lengths N rc wc outside start valve i).2.2.2]; exact hiN)

theorem entry_room (N : ℕ) (rc wc outside start : ℚ) (valve : ℕ → ℚ) (i : ℕ) (hiN : i < N)
    (him1 : pyIdx N ((i : ℤ) - 1) ≠ i) (him2 : pyIdx N ((i : ℤ) - 2) ≠ i) :
    (runUpTo N rc wc outside start valve (i + 1)).room_temps.getD i 0 =
      calc_temp ((runUpTo N rc wc outside start valve i).room_temps.getD (pyIdx N ((i : ℤ) - 1)) 0)
        [(runUpTo N rc wc outside start valve i).heat_in.getD (pyIdx N ((i : ℤ) - 1)) 0,
         (runUpTo N rc wc outside start valve i).heat_out.getD (pyIdx N ((i : ℤ) - 1)) 0,
         ((runUpTo N rc wc outside start valve i).heat_stored.getD (pyIdx N ((i : ℤ) - 2)) 0 -
          (runUpTo N rc wc outside start valve i).heat_stored.getD (pyIdx N ((i : ℤ) - 1)) 0) *
           1000000.0] := by
  rw [runUpTo_succ, stepSim_room_temps]
  rw [getD_set_self _ i _ 0
    (by rw [(runUpTo_lengths N rc wc outside start valve i).1]; exact hiN)]
  rw [stepSim_heat_in, stepSim_heat_out, stepSim_heat_stored]
  rw [getD_set_ne _ i (pyIdx N ((i : ℤ) - 1)) _ 0 (fun h => him1 h.symm),
    getD_set_ne _ i (pyIdx N ((i : ℤ) - 1)) _ 0 (fun h => him1 h.symm),
    getD_set_ne _ i (pyIdx N ((i : ℤ) - 2)) _ 0 (fun h => him2 h.symm),
    getD_set_ne _ i (pyIdx N ((i : ℤ) - 1)) _ 0 (fun h => him1 h.symm)]

theorem entry_room_wrap2 (N : ℕ) (rc wc outside start : ℚ) (valve : ℕ → ℚ) (i : ℕ)
    (hiN : i < N)
    (him1 : pyIdx N ((i : ℤ) - 1) ≠ i) (him2 : pyIdx N ((i : ℤ) - 2) = i) :
    (runUpTo N rc wc outside start valve (i + 1)).room_temps.getD i 0 =
      calc_temp ((runUpTo N rc wc outside start valve i).room_temps.getD (pyIdx N ((i : ℤ) - 1)) 0)
        [(runUpTo N rc wc outside start valve i).heat_in.getD (pyIdx N ((i : ℤ) - 1)) 0,
         (runUpTo N rc wc outside start valve i).heat_out.getD (pyIdx N ((i : ℤ) - 1)) 0,
         (calc_heat_storage
            ((runUpTo N rc wc outside start valve i).room_temps.getD (pyIdx N ((i : ℤ) - 1)) 0)
            ((runUpTo N rc wc outside start valve i).heat_stored.getD (pyIdx N ((i : ℤ) - 1)) 0) -
          (runUpTo N rc wc outside start valve i).heat_stored.getD (pyIdx N ((i : ℤ) - 1)) 0) *
           1000000.0] := by
  rw [runUpTo_succ, stepSim_room_temps]
  rw [getD_set_self _ i _ 0
    (by rw [(runUpTo_lengths N rc wc outside start valve i).1]; exact hiN)]
  rw [stepSim_heat_in, stepSim_heat_out, stepSim_heat_stored]
  rw [getD_set_ne _ i (pyIdx N ((i : ℤ) - 1)) _ 0 (fun h => him1 h.symm),
    getD_set_ne _ i (pyIdx N ((i : ℤ) - 1)) _ 0 (fun h => him1 h.symm)]
  rw [him2]
  rw [getD_set_self _ i _ 0
    (by rw [(runUpTo_lengths N rc wc outside start valve i).2.2.2]; exact hiN)]
  rw [getD_set_ne _ i (pyIdx N ((i : ℤ) - 1)) _ 0 (fun h => him1 h.symm)]

theorem calc_temp_three (x a b c : ℚ) :
    calc_temp x [a, b, c] = x + 1 / C_AIR * (a + b + c) := by
  unfold calc_temp
  simp [List.sum_cons, List.sum_nil]
  ring

theorem calc_heat_storage_fixed (x : ℚ) : calc_heat_storage x x = x := by
  unfold calc_heat_storage
  ring

theorem heatInRadiatorC_eq (c r v : ℚ) :
    heatInRadiatorC c r v = (effRadTemp v - r) * c := by
  unfold heatInRadiatorC effRadTemp
  ring

theorem heatInRadiatorC_zero (r v : ℚ) : heatInRadiatorC 0 r v = 0 := by
  unfold heatInRadiatorC
  ring

theorem heatLossWallsC_zero (r o : ℚ) : heatLossWallsC 0 r o = 0 := by
  unfold heatLossWallsC
  ring

theorem heatInAt_succ (N : ℕ) (rc wc outside start : ℚ) (valve : ℕ → ℚ) (i : ℕ)
    (h1 : 1 ≤ i) (h2 : i < N) :
    heatInAt N rc wc outside start valve i =
      heatInRadiatorC rc (roomAt N rc wc outside start valve (i - 1)) (valve (i - 1)) := by
  rw [heatInAt_run N rc wc outside start valve i h2,
    entry_heat_in N rc wc outside start valve i h2,
    pyIdx_sub_one N i h1 h2,
    (sim_stable N rc wc outside start valve i (i - 1) (by omega)).1,
    roomAt_run N rc wc outside start valve (i - 1) (by omega)]

theorem heatOutAt_succ (N : ℕ) (rc wc outside start : ℚ) (valve : ℕ → ℚ) (i : ℕ)
    (h1 : 1 ≤ i) (h2 : i < N) :
    heatOutAt N rc wc outside start valve i =
      heatLossWallsC wc (roomAt N rc wc outside start valve (i - 1)) outside := by
  rw [heatOutAt_run N rc wc outside start valve i h2,
    entry_heat_out N rc wc outside start valve i h2,
    pyIdx_sub_one N i h1 h2,
    (sim_stable N rc wc outside start valve i (i - 1) (by omega)).1,
    roomAt_run N rc wc outside start valve (i - 1) (by omega)]

theorem storedAt_succ (N : ℕ) (rc wc outside start : ℚ) (valve : ℕ → ℚ) (i : ℕ)
    (h1 : 1 ≤ i) (h2 : i < N) :
    storedAt N rc wc outside start valve i =
      calc_heat_storage (roomAt N rc wc outside start valve (i - 1))
        (storedAt N rc wc outside start valve (i - 1)) := by
  rw [storedAt_run N rc wc outside start valve i h2,
    entry_heat_stored N rc wc outside start valve i h2,
    pyIdx_sub_one N i h1 h2,
    (sim_stable N rc wc outside start valve i (i - 1) (by omega)).1,
    (sim_stable N rc wc outside start valve i (i - 1) (by omega)).2.2.2,
    roomAt_run N rc wc outside start valve (i - 1) (by omega),
    storedAt_run N rc wc outside start valve (i - 1) (by omega)]

theorem pyIdx_zero_one (N : ℕ) (h : 1 ≤ N) : pyIdx N (((0 : ℕ) : ℤ) - 1) = N - 1 := by
  have e : (((0 : ℕ) : ℤ) - 1) = -1 := by norm_num
  rw [e]
  exact pyIdx_neg_one N h

theorem pyIdx_zero_two (N : ℕ) (h : 2 ≤ N) : pyIdx N (((0 : ℕ) : ℤ) - 2) = N - 2 := by
  have e : (((0 : ℕ) : ℤ) - 2) = -2 := by norm_num
  rw [e]
  exact pyIdx_neg_two N h

theorem heatInAt_zero (N : ℕ) (rc wc outside start : ℚ) (valve : ℕ → ℚ) (h2 : 2 ≤ N) :
    heatInAt N rc wc outside start valve 0 =
      heatInRadiatorC rc start (valve (N - 1)) := by
  rw [heatInAt_run N rc wc outside start valve 0 (by omega),
    entry_heat_in N rc wc outside start valve 0 (by omega),
    pyIdx_zero_one N (by omega),
    (sim_untouched N rc wc outside start valve 0 (N - 1) (by omega) (by omega)).1]

theorem heatOutAt_zero (N : ℕ) (rc wc outside start : ℚ) (valve : ℕ → ℚ) (h2 : 2 ≤ N) :
    heatOutAt N rc wc outside start valve 0 = heatLossWallsC wc start outside := by
  rw [heatOutAt_run N rc wc outside start valve 0 (by omega),
    entry_heat_out N rc wc outside start valve 0 (by omega),
    pyIdx_zero_one N (by omega),
    (sim_untouched N rc wc outside start valve 0 (N - 1) (by omega) (by omega)).1]

theorem storedAt_zero (N : ℕ) (rc wc outside start : ℚ) (valve : ℕ → ℚ) (h2 : 2 ≤ N) :
    storedAt N rc wc outside start valve 0 = calc_heat_storage start start := by
  rw [storedAt_run N rc wc outside start valve 0 (by omega),
    entry_heat_stored N rc wc outside start valve 0 (by omega),
    pyIdx_zero_one N (by omega),
    (sim_untouched N rc wc outside start valve 0 (N - 1) (by omega) (by omega)).1,
    (sim_untouched N rc wc outside start valve 0 (N - 1) (by omega) (by omega)).2.2.2]

theorem roomAt_zero (N : ℕ) (rc wc outside start : ℚ) (valve : ℕ → ℚ) (h2 : 2 ≤ N) :
    roomAt N rc wc outside start valve 0 = start := by
  rw [roomAt_run N rc wc outside start valve 0 (by omega)]
  rcases eq_or_lt_of_le h2 with he | hlt
  · -- N = 2: the i-2 read wraps onto the cell written this iteration
    subst he
    rw [entry_room_wrap2 2 rc wc outside start valve 0 (by omega)
      (by rw [pyIdx_zero_one 2 (by omega)]; omega)
      (by have e : (((0 : ℕ) : ℤ) - 2) = -2 := by norm_num
          rw [e]; decide)]
    rw [pyIdx_zero_one 2 (by omega)]
    rw [(sim_untouched 2 rc wc outside start valve 0 1 (by omega) (by omega)).1,
      (sim_untouched 2 rc wc outside start valve 0 1 (by omega) (by omega)).2.1,
      (sim_untouched 2 rc wc outside start valve 0 1 (by omega) (by omega)).2.2.1,
      (sim_untouched 2 rc wc outside start valve 0 1 (by omega) (by omega)).2.2.2,
      calc_heat_storage_fixed, calc_temp_three]
    ring
  · -- N >= 3: the i-2 read lands on an untouched trailing cell
    rw [entry_room N rc wc outside start valve 0 (by omega)
      (by rw [pyIdx_zero_one N (by omega)]; omega)
      (by rw [pyIdx_zero_two N (by omega)]; omega)]
    rw [pyIdx_zero_one N (by omega), pyIdx_zero_two N (by omega)]
    rw [(sim_untouched N rc wc outside start valve 0 (N - 1) (by omega) (by omega)).1,
      (sim_untouched N rc wc outside start valve 0 (N - 1) (by omega) (by omega)).2.1,
      (sim_untouched N rc wc outside start valve 0 (N - 1) (by omega) (by omega)).2.2.1,
      (sim_untouched N rc wc outside start valve 0 (N - 2) (by omega) (by omega)).2.2.2,
      (sim_untouched N rc wc outside start valve 0 (N - 1) (by omega) (by omega)).2.2.2,
      calc_temp_three]
    ring

theorem roomAt_succ2 (N : ℕ) (rc wc outside start : ℚ) (valve : ℕ → ℚ) (t : ℕ)
    (h1 : 2 ≤ t) (h2 : t < N) :
    roomAt N rc wc outside start valve t =
      roomAt N rc wc outside start valve (t - 1) + 1 / C_AIR *
        (heatInAt N rc wc outside start valve (t - 1) +
         heatOutAt N rc wc outside start valve (t - 1) +
         (storedAt N rc wc outside start valve (t - 2) -
          storedAt N rc wc outside start valve (t - 1)) * 1000000.0) := by
  rw [roomAt_run N rc wc outside start valve t h2,
    entry_room N rc wc outside start valve t h2
      (by rw [pyIdx_sub_one N t (by omega) h2]; omega)
      (by rw [pyIdx_sub_two N t h1 h2]; omega),
    pyIdx_sub_one N t (by omega) h2, pyIdx_sub_two N t h1 h2,
    (sim_stable N rc wc outside start valve t (t - 1) (by omega)).1,
    (sim_stable N rc wc outside start valve t (t - 1) (by omega)).2.1,
    (sim_stable N rc wc outside start valve t (t - 1) (by omega)).2.2.1,
    (sim_stable N rc wc outside start valve t (t - 2) (by omega)).2.2.2,
    (sim_stable N rc wc outside start valve t (t - 1) (by omega)).2.2.2,
    roomAt_run N rc wc outside start valve (t - 1) (by omega),
    heatInAt_run N rc wc outside start valve (t - 1) (by omega),
    heatOutAt_run N rc wc outside start valve (t - 1) (by omega),
    storedAt_run N rc wc outside start valve (t - 2) (by omega),
    storedAt_run N rc wc outside start valve (t - 1) (by omega),
    calc_temp_three]

theorem roomAt_one (N : ℕ) (rc wc outside start : ℚ) (valve : ℕ → ℚ) (h3 : 3 ≤ N) :
    roomAt N rc wc outside start valve 1 =
      roomAt N rc wc outside start valve 0 + 1 / C_AIR *
        (heatInAt N rc wc outside start valve 0 +
         heatOutAt N rc wc outside start valve 0 +
         (start - storedAt N rc wc outside start valve 0) * 1000000.0) := by
  have e2 : (((1 : ℕ) : ℤ) - 2) = -1 := by norm_num
  rw [roomAt_run N rc wc outside start valve 1 (by omega),
    entry_room N rc wc outside start valve 1 (by omega)
      (by rw [pyIdx_sub_one N 1 (by omega) (by omega)]; omega)
      (by rw [e2, pyIdx_neg_one N (by omega)]; omega),
    pyIdx_sub_one N 1 (by omega) (by omega), e2, pyIdx_neg_one N (by omega),
    show (1 : ℕ) - 1 = 0 from rfl,
    (sim_stable N rc wc outside start valve 1 0 (by omega)).1,
    (sim_stable N rc wc outside start valve 1 0 (by omega)).2.1,
    (sim_stable N rc wc outside start valve 1 0 (by omega)).2.2.1,
    (sim_untouched N rc wc outside start valve 1 (N - 1) (by omega) (by omega)).2.2.2,
    (sim_stable N rc wc outside start valve 1 0 (by omega)).2.2.2,
    roomAt_run N rc wc outside start valve 0 (by omega),
    heatInAt_run N rc wc outside start valve 0 (by omega),
    heatOutAt_run N rc wc outside start valve 0 (by omega),
    storedAt_run N rc wc outside start valve 0 (by omega),
    calc_temp_three]

theorem getD_set_cases {α : Type} (l : List α) (n k : ℕ) (v d : α) (hk : k < l.length) :
    (l.set n v).getD k d = if k = n then v else l.getD k d := by
  by_cases h : k = n
  · subst h
    rw [if_pos rfl]
    exact getD_set_self l k v d hk
  · rw [if_neg h]
    exact getD_set_ne l n k v d (fun hh => h hh.symm)

theorem insulated_inv (N : ℕ) (outside start : ℚ) (valve : ℕ → ℚ) :
    ∀ m, m ≤ N → ∀ k, k < N →
      (runUpTo N 0 0 outside start valve m).room_temps.getD k 0 = start ∧
      (runUpTo N 0 0 outside start valve m).heat_stored.getD k 0 = start ∧
      (runUpTo N 0 0 outside start valve m).heat_in.getD k 0 = 0 ∧
      (runUpTo N 0 0 outside start valve m).heat_out.getD k 0 = 0 := by
  intro m
  induction m with
  | zero =>
    intro _ k hk
    have h := sim_untouched N 0 0 outside start valve 0 k (by omega) hk
    exact ⟨h.1, h.2.2.2, h.2.1, h.2.2.1⟩
  | succ n ih =>
    intro hm k hk
    have hn : n ≤ N := by omega
    have h0N : 0 < N := by omega
    have him1lt : pyIdx N ((n : ℤ) - 1) < N := pyIdx_lt N _ h0N
    have him2lt : pyIdx N ((n : ℤ) - 2) < N := pyIdx_lt N _ h0N
    have hp1 := ih hn (pyIdx N ((n : ℤ) - 1)) him1lt
    have hp2 := ih hn (pyIdx N ((n : ℤ) - 2)) him2lt
    have hpk := ih hn k hk
    have hlen := runUpTo_lengths N 0 0 outside start valve n
    rw [runUpTo_succ, stepSim_heat_in, stepSim_heat_out, stepSim_heat_stored,
      stepSim_room_temps, stepSim_heat_in, stepSim_heat_out, stepSim_heat_stored]
    rw [hp1.1, hp1.2.1, heatInRadiatorC_zero, heatLossWallsC_zero, calc_heat_storage_fixed]
    have rin : ((runUpTo N 0 0 outside start valve n).heat_in.set n 0).getD
        (pyIdx N ((n : ℤ) - 1)) 0 = 0 := by
      rw [getD_set_cases _ n _ 0 0 (by rw [hlen.2.1]; exact him1lt)]
      split_ifs
      · rfl
      · exact hp1.2.2.1
    have rout : ((runUpTo N 0 0 outside start valve n).heat_out.set n 0).getD
        (pyIdx N ((n : ℤ) - 1)) 0 = 0 := by
      rw [getD_set_cases _ n _ 0 0 (by rw [hlen.2.2.1]; exact him1lt)]
      split_ifs
      · rfl
      · exact hp1.2.2.2
    have rst2 : ((runUpTo N 0 0 outside start valve n).heat_stored.set n start).getD
        (pyIdx N ((n : ℤ) - 2)) 0 = start := by
      rw [getD_set_cases _ n _ start 0 (by rw [hlen.2.2.2]; exact him2lt)]
      split_ifs
      · rfl
      · exact hp2.2.1
    have rst1 : ((runUpTo N 0 0 outside start valve n).heat_stored.set n start).getD
        (pyIdx N ((n : ℤ) - 1)) 0 = start := by
      rw [getD_set_cases _ n _ start 0 (by rw [hlen.2.2.2]; exact him1lt)]
      split_ifs
      · rfl
      · exact hp1.2.1
    rw [rin, rout, rst2, rst1]
    have hroomval : calc_temp start [(0 : ℚ), 0, (start - start) * 1000000.0] = start := by
      rw [calc_temp_three]
      ring
    rw [hroomval]
    refine ⟨?_, ?_, ?_, ?_⟩
    · rw [getD_set_cases _ n k start 0 (by rw [hlen.1]; exact hk)]
      split_ifs
      · rfl
      · exact hpk.1
    · rw [getD_set_cases _ n k start 0 (by rw [hlen.2.2.2]; exact hk)]
      split_ifs
      · rfl
      · exact hpk.2.1
    · rw [getD_set_cases _ n k 0 0 (by rw [hlen.2.1]; exact hk)]
      split_ifs
      · rfl
      · exact hpk.2.2.1
    · rw [getD_set_cases _ n k 0 0 (by rw [hlen.2.2.1]; exact hk)]
      split_ifs
      · rfl
      · exact hpk.2.2.2

/-! ## Claims about the thermal stepper -/

/-- C1: for every step t of the run, the new room temperature is the
previous one plus (1/C_AIR) times the sum of the previous step's radiator
heat, wall-loss heat and the storage term, where the storage term at step
t-1 is the change of the stored (secondary-mass) temperature across that
step, read through the wrapped index i-2 and scaled by the large empirical
multiplier 1000000. The first conjunct covers t in 2..N-1 in terms of the
final history arrays; the second covers t = 1, where the i-2 read wraps to
the untouched trailing cell still holding the initial start temperature. -/
theorem c1_room_temp_recurrence (N : ℕ) (rc wc outside start : ℚ) (valve : ℕ → ℚ) :
    (∀ t, 2 ≤ t → t < N →
      roomAt N rc wc outside start valve t =
        roomAt N rc wc outside start valve (t - 1) + 1 / C_AIR *
          (heatInAt N rc wc outside start valve (t - 1) +
           heatOutAt N rc wc outside start valve (t - 1) +
           (storedAt N rc wc outside start valve (t - 2) -
            storedAt N rc wc outside start valve (t - 1)) * 1000000.0)) ∧
    (3 ≤ N →
      roomAt N rc wc outside start valve 1 =
        roomAt N rc wc outside start valve 0 + 1 / C_AIR *
          (heatInAt N rc wc outside start valve 0 +
           heatOutAt N rc wc outside start valve 0 +
           (start - storedAt N rc wc outside start valve 0) * 1000000.0)) :=
  ⟨fun t h1 h2 => roomAt_succ2 N rc wc outside start valve t h1 h2,
   fun h3 => roomAt_one N rc wc outside start valve h3⟩

/-- Witness for C1 at horizon 4 with the script's conductances, step t = 2. -/
theorem c1_witness :
    roomAt 4 25 WALL_CONDUCTANCE 0 20 vconst 2 =
      roomAt 4 25 WALL_CONDUCTANCE 0 20 vconst 1 + 1 / C_AIR *
        (heatInAt 4 25 WALL_CONDUCTANCE 0 20 vconst 1 +
         heatOutAt 4 25 WALL_CONDUCTANCE 0 20 vconst 1 +
         (storedAt 4 25 WALL_CONDUCTANCE 0 20 vconst 0 -
          storedAt 4 25 WALL_CONDUCTANCE 0 20 vconst 1) * 1000000.0) :=
  (c1_room_temp_recurrence 4 25 WALL_CONDUCTANCE 0 20 vconst).1 2 (by decide) (by decide)

theorem mulRC_pos (x : ℚ) : 0 < x * RADIATOR_CONDUCTANCE ↔ 0 < x := by
  unfold RADIATOR_CONDUCTANCE
  constructor <;> intro h <;> linarith

/-- C6: the radiator heat flow is (effective radiator temperature minus the
previous room temperature) times the fixed constant RADIATOR_CONDUCTANCE,
where the effective temperature is the affine transform 2 * pct - 80 of the
valve percentage driving the run; it is positive exactly when the effective
radiator temperature exceeds the previous room temperature. The last
conjunct is the spec-modelled temperature-schedule driver, whose effective
temperature is the direct driving value. -/
theorem c6_radiator_heat_flow (N : ℕ) (wc outside start : ℚ) (valve : ℕ → ℚ) :
    (∀ room_temp radiator_temp : ℚ,
      calc_heat_in_radiator room_temp radiator_temp =
        (effRadTemp radiator_temp - room_temp) * RADIATOR_CONDUCTANCE) ∧
    (∀ i, 1 ≤ i → i < N →
      heatInAt N RADIATOR_CONDUCTANCE wc outside start valve i =
        (effRadTemp (valve (i - 1)) -
          roomAt N RADIATOR_CONDUCTANCE wc outside start valve (i - 1)) *
          RADIATOR_CONDUCTANCE ∧
      (0 < heatInAt N RADIATOR_CONDUCTANCE wc outside start valve i ↔
        roomAt N RADIATOR_CONDUCTANCE wc outside start valve (i - 1) <
          effRadTemp (valve (i - 1)))) ∧
    (2 ≤ N →
      heatInAt N RADIATOR_CONDUCTANCE wc outside start valve 0 =
        (effRadTemp (valve (N - 1)) - start) * RADIATOR_CONDUCTANCE ∧
      (0 < heatInAt N RADIATOR_CONDUCTANCE wc outside start valve 0 ↔
        start < effRadTemp (valve (N - 1)))) ∧
    (∀ room_temp radiator_temp : ℚ,
      heatInRadiatorTempDriven room_temp radiator_temp =
        (radiator_temp - room_temp) * RADIATOR_CONDUCTANCE) := by
  refine ⟨fun r v => heatInRadiatorC_eq RADIATOR_CONDUCTANCE r v,
    fun i h1 h2 => ?_, fun h2 => ?_, fun r v => rfl⟩
  · rw [heatInAt_succ N RADIATOR_CONDUCTANCE wc outside start valve i h1 h2,
      heatInRadiatorC_eq]
    exact ⟨rfl, by rw [mulRC_pos]; exact sub_pos⟩
  · rw [heatInAt_zero N RADIATOR_CONDUCTANCE wc outside start valve h2,
      heatInRadiatorC_eq]
    exact ⟨rfl, by rw [mulRC_pos]; exact sub_pos⟩

/-- Witness for C6 at horizon 3, step 1, with the script's conductances. -/
theorem c6_witness :
    heatInAt 3 RADIATOR_CONDUCTANCE WALL_CONDUCTANCE 0 20 vconst 1 =
      (effRadTemp (vconst 0) -
        roomAt 3 RADIATOR_CONDUCTANCE WALL_CONDUCTANCE 0 20 vconst 0) *
        RADIATOR_CONDUCTANCE :=
  ((c6_radiator_heat_flow 3 WALL_CONDUCTANCE 0 20 vconst).2.1 1 (by decide) (by decide)).1

/-- C8: with both the radiator conductance and the wall conductance zero,
the room temperature stays at the start temperature at every step, for any
horizon, start temperature, outside temperature and driving series; the
stored secondary-mass temperature stays at the start temperature too
(the invariant the per-step proof preserves). -/
theorem c8_insulated_room_constant (N : ℕ) (outside start : ℚ) (valve : ℕ → ℚ)
    (t : ℕ) (ht : t < N) :
    roomAt N 0 0 outside start valve t = start ∧
    storedAt N 0 0 outside start valve t = start := by
  have h := insulated_inv N outside start valve N le_rfl t ht
  exact ⟨h.1, h.2.1⟩

/-- Witness for C8 at horizon 3, step 2. -/
theorem c8_witness :
    roomAt 3 0 0 0 20 vconst 2 = 20 ∧ storedAt 3 0 0 0 20 vconst 2 = 20 :=
  c8_insulated_room_constant 3 0 20 vconst 2 (by decide)

/-- C9: the run is the fold of the step over exactly the index list
0..N-1 (no early exit, no convergence test), and all four history arrays
of the finished run have length exactly N. -/
theorem c9_fixed_horizon (N : ℕ) (rc wc outside start : ℚ) (valve : ℕ → ℚ) :
    runSim N rc wc outside start valve =
      (List.range N).foldl (stepSim N rc wc outside valve) (initState N start) ∧
    (runSim N rc wc outside start valve).heat_in.length = N ∧
    (runSim N rc wc outside start valve).heat_out.length = N ∧
    (runSim N rc wc outside start valve).room_temps.length = N ∧
    (runSim N rc wc outside start valve).heat_stored.length = N := by
  have h := runUpTo_lengths N rc wc outside start valve N
  exact ⟨rfl, h.2.1, h.2.2.1, h.1, h.2.2.2⟩

/-- C10: at every step i of the run the driving value fed to the radiator
computation is the valve series entry at the wrapped index i-1, and the
three heat computations read the room temperature at that same index; at
i = 0 with N at least 2 the wrapped reads land on trailing cells holding
the initial conditions, so the first heat-in entry reads the start
temperature (and the last valve entry), and the first room update sums
initial zero heats with a zero storage difference, leaving the start
temperature. -/
theorem c10_wraparound_init (N : ℕ) (rc wc outside start : ℚ) (valve : ℕ → ℚ)
    (hN : 2 ≤ N) :
    (∀ i, 1 ≤ i → i < N →
      heatInAt N rc wc outside start valve i =
        heatInRadiatorC rc (roomAt N rc wc outside start valve (i - 1)) (valve (i - 1)) ∧
      heatOutAt N rc wc outside start valve i =
        heatLossWallsC wc (roomAt N rc wc outside start valve (i - 1)) outside ∧
      storedAt N rc wc outside start valve i =
        calc_heat_storage (roomAt N rc wc outside start valve (i - 1))
          (storedAt N rc wc outside start valve (i - 1))) ∧
    heatInAt N rc wc outside start valve 0 = heatInRadiatorC rc start (valve (N - 1)) ∧
    heatOutAt N rc wc outside start valve 0 = heatLossWallsC wc start outside ∧
    storedAt N rc wc outside start valve 0 = calc_heat_storage start start ∧
    roomAt N rc wc outside start valve 0 = start :=
  ⟨fun i h1 h2 =>
    ⟨heatInAt_succ N rc wc outside start valve i h1 h2,
     heatOutAt_succ N rc wc outside start valve i h1 h2,
     storedAt_succ N rc wc outside start valve i h1 h2⟩,
   heatInAt_zero N rc wc outside start valve hN,
   heatOutAt_zero N rc wc outside start valve hN,
   storedAt_zero N rc wc outside start valve hN,
   roomAt_zero N rc wc outside start valve hN⟩

/-- Witness for C10 at the smallest covered horizon, N = 2. -/
theorem c10_witness :
    heatInAt 2 25 WALL_CONDUCTANCE 0 20 vconst 0 = heatInRadiatorC 25 20 (vconst 1) ∧
    roomAt 2 25 WALL_CONDUCTANCE 0 20 vconst 0 = 20 :=
  ⟨(c10_wraparound_init 2 25 WALL_CONDUCTANCE 0 20 vconst (by decide)).2.1,
   (c10_wraparound_init 2 25 WALL_CONDUCTANCE 0 20 vconst (by decide)).2.2.2.2⟩
